import Mathlib

/-!
Verification development for `resources/convert_lm.py`, a script that parses one
XML file (`votable_to_json.xml`), converts the parse tree to a nested
mapping/sequence structure with `xmltodict.parse`, prints an indent-2 JSON dump
of that structure produced with a custom encoder (`MyEncoder`, which converts
numpy integers, numpy floats and numpy ndarrays to plain JSON values), and then
writes a second indent-2 JSON dump — produced *without* the custom encoder — to
`votable_to_json.json`.

The development shallowly embeds the values the script manipulates, the two
`json.dumps` calls, the `xmltodict` conversion, and the observable run
behaviour (stdout, file open, file write, exit code) as pure Lean functions,
and proves the specification claims about them.
-/

set_option maxHeartbeats 1000000

/-- JSON values, the abstract result of a successful `json.dumps` call (before
text rendering).  Float payloads are carried as an opaque `Int` token: the
script never computes with floats, it only passes them through `float(obj)`. -/
inductive Json : Type where
  | str (s : String)
  | jint (n : Int)
  | jfloat (f : Int)
  | bool (b : Bool)
  | null
  | obj (entries : List (String × Json))
  | arr (items : List Json)

/-- Python values that can appear in the intermediate structure handed to
`json.dumps`: the natively serializable types (str, int, float, bool, None,
dict, list), the three numpy types special-cased by `MyEncoder.default`
(`numpy.integer`, `numpy.floating`, `numpy.ndarray`), and `other`, standing
for any object of a type the encoder does not support. -/
inductive Value : Type where
  | str (s : String)
  | pyInt (n : Int)
  | pyFloat (f : Int)
  | bool (b : Bool)
  | null
  | obj (entries : List (String × Value))
  | arr (items : List Value)
  | npInt (n : Int)
  | npFloat (f : Int)
  | npArray (items : List Value)
  | other (tag : String)

mutual

/-- Whether every value in the structure is of a type whitelisted for
`json.dumps(..., cls=MyEncoder)`: string, number, boolean, null, mapping,
sequence, or one of the numeric fallback types handled by `MyEncoder.default`.
Only `other` (an unsupported object) is excluded. -/
def supported : Value → Bool
  | .str _ => true
  | .pyInt _ => true
  | .pyFloat _ => true
  | .bool _ => true
  | .null => true
  | .obj entries => supportedEntries entries
  | .arr items => supportedList items
  | .npInt _ => true
  | .npFloat _ => true
  | .npArray items => supportedList items
  | .other _ => false

def supportedEntries : List (String × Value) → Bool
  | [] => true
  | (_, v) :: ps => supported v && supportedEntries ps

def supportedList : List Value → Bool
  | [] => true
  | v :: vs => supported v && supportedList vs

end

mutual

/-- Whether some value in the structure is one of the three numpy types that
`MyEncoder.default` handles but the default `json.JSONEncoder` rejects. -/
def containsNumpy : Value → Bool
  | .str _ => false
  | .pyInt _ => false
  | .pyFloat _ => false
  | .bool _ => false
  | .null => false
  | .obj entries => entriesContainNumpy entries
  | .arr items => listContainsNumpy items
  | .npInt _ => true
  | .npFloat _ => true
  | .npArray _ => true
  | .other _ => false

def entriesContainNumpy : List (String × Value) → Bool
  | [] => false
  | (_, v) :: ps => containsNumpy v || entriesContainNumpy ps

def listContainsNumpy : List Value → Bool
  | [] => false
  | v :: vs => containsNumpy v || listContainsNumpy vs

end

mutual

/-- Embedding of `json.dumps(raw_json, indent=2)` — the file-write call at the
end of the script, which does NOT pass `cls=MyEncoder`.  The default
`json.JSONEncoder` serializes str, int, float, bool, None, dict and list, and
raises `TypeError` (here `none`) on any other object, numpy types included. -/
def jsonDumps : Value → Option Json
  | .str s => some (.str s)
  | .pyInt n => some (.jint n)
  | .pyFloat f => some (.jfloat f)
  | .bool b => some (.bool b)
  | .null => some .null
  | .obj entries => (jsonDumpsEntries entries).map Json.obj
  | .arr items => (jsonDumpsList items).map Json.arr
  | .npInt _ => none
  | .npFloat _ => none
  | .npArray _ => none
  | .other _ => none

def jsonDumpsEntries : List (String × Value) → Option (List (String × Json))
  | [] => some []
  | (k, v) :: ps =>
    match jsonDumps v, jsonDumpsEntries ps with
    | some j, some js => some ((k, j) :: js)
    | _, _ => none

def jsonDumpsList : List Value → Option (List Json)
  | [] => some []
  | v :: vs =>
    match jsonDumps v, jsonDumpsList vs with
    | some j, some js => some (j :: js)
    | _, _ => none

end

mutual

/-- Embedding of `json.dumps(raw_json, indent=2, cls=MyEncoder)` — the
console-print call.  `MyEncoder.default` maps `numpy.integer` values through
`int`, `numpy.floating` values through `float`, and `numpy.ndarray` values
through `.tolist()` (whose elements are then serialized recursively by the
same encoder); every other unsupported object still raises `TypeError`. -/
def myEncoderDumps : Value → Option Json
  | .str s => some (.str s)
  | .pyInt n => some (.jint n)
  | .pyFloat f => some (.jfloat f)
  | .bool b => some (.bool b)
  | .null => some .null
  | .obj entries => (myEncoderDumpsEntries entries).map Json.obj
  | .arr items => (myEncoderDumpsList items).map Json.arr
  | .npInt n => some (.jint n)
  | .npFloat f => some (.jfloat f)
  | .npArray items => (myEncoderDumpsList items).map Json.arr
  | .other _ => none

def myEncoderDumpsEntries : List (String × Value) → Option (List (String × Json))
  | [] => some []
  | (k, v) :: ps =>
    match myEncoderDumps v, myEncoderDumpsEntries ps with
    | some j, some js => some ((k, j) :: js)
    | _, _ => none

def myEncoderDumpsList : List Value → Option (List Json)
  | [] => some []
  | v :: vs =>
    match myEncoderDumps v, myEncoderDumpsList vs with
    | some j, some js => some (j :: js)
    | _, _ => none

end

/-- Two spaces of indentation per nesting level, as `indent=2` produces. -/
def indentStr (lvl : Nat) : String :=
  String.mk (List.replicate (2 * lvl) ' ')

/-- Minimal JSON string escaping (backslash and double quote). -/
def escapeString (s : String) : String :=
  (s.replace "\\" "\\\\").replace "\"" "\\\""

mutual

/-- Modelled from the spec: the indent-2 text rendering performed by
`json.dumps(..., indent=2)` (the `json` library's serializer is not part of
this repository).  It is a deterministic function of the `Json` value. -/
def render (lvl : Nat) : Json → String
  | .str s => "\"" ++ escapeString s ++ "\""
  | .jint n => toString n
  | .jfloat f => toString f ++ ".0"
  | .bool b => if b then "true" else "false"
  | .null => "null"
  | .obj [] => "\x7b\x7d"
  | .obj (p :: ps) =>
    "\x7b\n" ++ renderEntries (lvl + 1) (p :: ps) ++ "\n" ++ indentStr lvl ++ "\x7d"
  | .arr [] => "[]"
  | .arr (v :: vs) =>
    "[\n" ++ renderItems (lvl + 1) (v :: vs) ++ "\n" ++ indentStr lvl ++ "]"

def renderEntries (lvl : Nat) : List (String × Json) → String
  | [] => ""
  | [(k, v)] =>
    indentStr lvl ++ "\"" ++ escapeString k ++ "\": " ++ render lvl v
  | (k, v) :: ps =>
    indentStr lvl ++ "\"" ++ escapeString k ++ "\": " ++ render lvl v ++ ",\n"
      ++ renderEntries lvl ps

def renderItems (lvl : Nat) : List Json → String
  | [] => ""
  | [v] => indentStr lvl ++ render lvl v
  | v :: vs => indentStr lvl ++ render lvl v ++ ",\n" ++ renderItems lvl vs

end

/-- Top-level rendering of a structure, as both `json.dumps` calls format it. -/
def renderTop (j : Json) : String := render 0 j

/-- XML element trees: tag, attributes in document order, optional text
content, child elements in document order. -/
inductive Xml : Type where
  | elem (tag : String) (attrs : List (String × String)) (text : Option String)
      (children : List Xml)

/-- Tag name of an element. -/
def Xml.tag : Xml → String
  | .elem t _ _ _ => t

/-- Values stored under key `t` in an association list, in list order. -/
def valuesFor (t : String) : List (String × Value) → List Value
  | [] => []
  | (k, v) :: ps => if k = t then v :: valuesFor t ps else valuesFor t ps

/-- Keys of an association list in order of first occurrence, skipping keys in
`seen`. -/
def firstKeysAux (seen : List String) : List (String × Value) → List String
  | [] => []
  | (k, _) :: ps =>
    if k ∈ seen then firstKeysAux seen ps else k :: firstKeysAux (k :: seen) ps

/-- Keys of an association list in order of first occurrence. -/
def firstKeys (ps : List (String × Value)) : List String :=
  firstKeysAux [] ps

/-- Modelled from the spec: the sibling-grouping step of `xmltodict.parse`
(the `xmltodict` library is not part of this repository).  Children are listed
once per distinct tag in order of first occurrence; a tag occurring exactly
once maps to that child's converted value, a repeated tag maps to the ordered
sequence of the converted values of all its occurrences, in source order. -/
def groupValue (ps : List (String × Value)) (t : String) : Value :=
  match valuesFor t ps with
  | [v] => v
  | vs => Value.arr vs

/-- Grouped child entries: one entry per distinct tag, in first-occurrence
order. -/
def groupChildren (ps : List (String × Value)) : List (String × Value) :=
  (firstKeys ps).map (fun t => (t, groupValue ps t))

/-- Modelled from the spec: attribute values are string-typed and stored under
keys carrying the reserved `"@"` marker, distinguishing them from
child-element keys. -/
def attrEntries (attrs : List (String × String)) : List (String × Value) :=
  attrs.map (fun a => ("@" ++ a.1, Value.str a.2))

/-- Text content of a mixed element is stored under the reserved key `"#text"`. -/
def textEntries (text : Option String) : List (String × Value) :=
  match text with
  | none => []
  | some s => [("#text", Value.str s)]

mutual

/-- Modelled from the spec: the value `xmltodict.parse` associates to one
element.  A childless, attributeless element becomes its text (or null);
otherwise the element becomes an ordered mapping holding its `"@"`-marked
attributes, its grouped children, and its `"#text"` content. -/
def elemValue : Xml → Value
  | .elem _ attrs text children =>
    if attrs.isEmpty && children.isEmpty then
      match text with
      | none => Value.null
      | some s => Value.str s
    else
      Value.obj (attrEntries attrs ++ groupChildren (childEntries children)
        ++ textEntries text)

def childEntries : List Xml → List (String × Value)
  | [] => []
  | c :: cs => (c.tag, elemValue c) :: childEntries cs

end

/-- Modelled from the spec: `xmltodict.parse` wraps the converted root element
in a single-entry mapping keyed by the root tag. -/
def xmltodictParse (root : Xml) : Value :=
  Value.obj [(root.tag, elemValue root)]

/-- Input filename, hard-coded at the `etree.parse` call. -/
def inputFileName : String := "votable_to_json.xml"

/-- Output filename, hard-coded at the `open(..., 'w')` call. -/
def outputFileName : String := "votable_to_json.json"

/-- Embedding of `os.path.join(dir, name)` for an absolute `dir` and a bare
filename. -/
def joinPath (dir name : String) : String := dir ++ "/" ++ name

/-- Path the script reads, relative to `data_path` (the script's directory). -/
def inputPath (dataPath : String) : String := joinPath dataPath inputFileName

/-- Path the script writes, relative to `data_path` (the script's directory). -/
def outputPath (dataPath : String) : String := joinPath dataPath outputFileName

/-- Modelled from the spec: the output filename derivation `name.xml →
name.json` — replace the three-character `xml` extension (keeping the dot)
with `json`. -/
def replaceXmlWithJson (name : String) : String :=
  String.mk (name.data.take (name.data.length - 3) ++ ['j', 's', 'o', 'n'])

/-- Observable events of one run, in order: a string printed to stdout
(including the newline appended by `print`), the output file opened for
writing (which truncates it), a string written to the output file. -/
inductive Event : Type where
  | printed (s : String)
  | fileOpened (name : String)
  | fileWritten (name : String) (content : String)
deriving DecidableEq

/-- Observable outcome of one run: the ordered event trace and the process
exit code (0 on success, 1 when an uncaught exception aborts the script). -/
structure RunResult : Type where
  events : List Event
  exitCode : Nat
deriving DecidableEq

/-- Embedding of the script body after `xmltodict.parse`:
`pretty_json = json.dumps(raw_json, indent=2, cls=MyEncoder)` (abort on
`TypeError`), `print(pretty_json)`, then `open(output, 'w')` followed inside
the `with` block by `json.dumps(raw_json, indent=2)` — without the custom
encoder — whose `TypeError` aborts after the file is already open (truncated),
and finally `file.write(...)`. -/
def runFromRaw (raw : Value) : RunResult :=
  match myEncoderDumps raw with
  | none => ⟨[], 1⟩
  | some j =>
    match jsonDumps raw with
    | none => ⟨[.printed (renderTop j ++ "\n"), .fileOpened outputFileName], 1⟩
    | some j2 =>
      ⟨[.printed (renderTop j ++ "\n"), .fileOpened outputFileName,
        .fileWritten outputFileName (renderTop j2)], 0⟩

/-- Embedding of the whole script: `etree.parse` either fails (missing,
unreadable or malformed input file — modelled as `none`, the uncaught
`ParseError`/`OSError` aborting the run before any output happens) or yields
the document tree, which is converted by `xmltodict.parse` and serialized. -/
def run : Option Xml → RunResult
  | none => ⟨[], 1⟩
  | some x => runFromRaw (xmltodictParse x)

/-- Big-step characterisation of one run of the script as a relation, used to
state determinism: each constructor mirrors one control path of `run`. -/
inductive Runs : Option Xml → RunResult → Prop where
  | parseFail : Runs none ⟨[], 1⟩
  | printDumpFail (x : Xml) :
      myEncoderDumps (xmltodictParse x) = none →
      Runs (some x) ⟨[], 1⟩
  | fileDumpFail (x : Xml) (j : Json) :
      myEncoderDumps (xmltodictParse x) = some j →
      jsonDumps (xmltodictParse x) = none →
      Runs (some x)
        ⟨[.printed (renderTop j ++ "\n"), .fileOpened outputFileName], 1⟩
  | success (x : Xml) (j j2 : Json) :
      myEncoderDumps (xmltodictParse x) = some j →
      jsonDumps (xmltodictParse x) = some j2 →
      Runs (some x)
        ⟨[.printed (renderTop j ++ "\n"), .fileOpened outputFileName,
          .fileWritten outputFileName (renderTop j2)], 0⟩

/-- Contents of the output file after a run: `none` when the file was never
opened, otherwise the concatenation of everything written after the truncating
open (empty when the run died between `open` and `write`). -/
def fileContentsAfter (r : RunResult) : Option String :=
  if r.events.any (fun e => match e with | .fileOpened _ => true | _ => false) then
    some (String.join (r.events.filterMap
      (fun e => match e with | .fileWritten _ c => some c | _ => none)))
  else
    none

/-- Number of stdout prints in a trace. -/
def printedCount (r : RunResult) : Nat :=
  r.events.countP (fun e => match e with | .printed _ => true | _ => false)

/-- Whether a value is an ordered sequence. -/
def Value.isArr : Value → Bool
  | .arr _ => true
  | _ => false

/-- Entry list of a mapping value (empty for non-mappings). -/
def entriesOf : Value → List (String × Value)
  | .obj entries => entries
  | _ => []

/-- First value stored under a key in an association list. -/
def lookupKey (k : String) : List (String × Value) → Option Value
  | [] => none
  | (k', v) :: ps => if k' = k then some v else lookupKey k ps

/-- Sibling elements with tag `t`, in source order. -/
def sameTagChildren (t : String) : List Xml → List Xml
  | [] => []
  | c :: cs => if c.tag = t then c :: sameTagChildren t cs else sameTagChildren t cs

/-- First value stored under a key in a string association list (attribute
lookup). -/
def lookupString (k : String) : List (String × String) → Option String
  | [] => none
  | (k2, v) :: ps => if k2 = k then some v else lookupString k ps

/-- Whether a key carries the reserved `"@"` attribute marker. -/
def isAttrKey (s : String) : Bool :=
  match s.data with
  | [] => false
  | c :: _ => c == '@'

/-! ## Helper lemmas -/

mutual

theorem jsonDumps_imp_myEncoder :
    ∀ (v : Value) (j : Json), jsonDumps v = some j → myEncoderDumps v = some j
  | .str _, _, h => h
  | .pyInt _, _, h => h
  | .pyFloat _, _, h => h
  | .bool _, _, h => h
  | .null, _, h => h
  | .obj entries, j, h => by
    have h' : (jsonDumpsEntries entries).map Json.obj = some j := h
    show (myEncoderDumpsEntries entries).map Json.obj = some j
    cases hjs : jsonDumpsEntries entries with
    | none => rw [hjs] at h'; exact absurd h' (by simp)
    | some js =>
      rw [hjs] at h'
      rw [jsonDumpsEntries_imp entries js hjs]
      exact h'
  | .arr items, j, h => by
    have h' : (jsonDumpsList items).map Json.arr = some j := h
    show (myEncoderDumpsList items).map Json.arr = some j
    cases hjs : jsonDumpsList items with
    | none => rw [hjs] at h'; exact absurd h' (by simp)
    | some js =>
      rw [hjs] at h'
      rw [jsonDumpsList_imp items js hjs]
      exact h'

theorem jsonDumpsEntries_imp :
    ∀ (ps : List (String × Value)) (js : List (String × Json)),
      jsonDumpsEntries ps = some js → myEncoderDumpsEntries ps = some js
  | [], _, h => h
  | (k, v) :: ps, js, h => by
    have h' : (match jsonDumps v, jsonDumpsEntries ps with
      | some j, some rest => some ((k, j) :: rest)
      | _, _ => none) = some js := h
    show (match myEncoderDumps v, myEncoderDumpsEntries ps with
      | some j, some rest => some ((k, j) :: rest)
      | _, _ => none) = some js
    cases hj : jsonDumps v with
    | none => rw [hj] at h'; simp at h'
    | some j =>
      cases hrest : jsonDumpsEntries ps with
      | none => rw [hj, hrest] at h'; simp at h'
      | some rest =>
        rw [hj, hrest] at h'
        rw [jsonDumps_imp_myEncoder v j hj, jsonDumpsEntries_imp ps rest hrest]
        exact h'

theorem jsonDumpsList_imp :
    ∀ (vs : List Value) (js : List Json),
      jsonDumpsList vs = some js → myEncoderDumpsList vs = some js
  | [], _, h => h
  | v :: vs, js, h => by
    have h' : (match jsonDumps v, jsonDumpsList vs with
      | some j, some rest => some (j :: rest)
      | _, _ => none) = some js := h
    show (match myEncoderDumps v, myEncoderDumpsList vs with
      | some j, some rest => some (j :: rest)
      | _, _ => none) = some js
    cases hj : jsonDumps v with
    | none => rw [hj] at h'; simp at h'
    | some j =>
      cases hrest : jsonDumpsList vs with
      | none => rw [hj, hrest] at h'; simp at h'
      | some rest =>
        rw [hj, hrest] at h'
        rw [jsonDumps_imp_myEncoder v j hj, jsonDumpsList_imp vs rest hrest]
        exact h'

end

mutual

theorem myEncoder_isSome_eq_supported :
    ∀ v : Value, (myEncoderDumps v).isSome = supported v
  | .str _ => rfl
  | .pyInt _ => rfl
  | .pyFloat _ => rfl
  | .bool _ => rfl
  | .null => rfl
  | .obj entries => by
    show ((myEncoderDumpsEntries entries).map Json.obj).isSome = supportedEntries entries
    rw [← myEncoderEntries_isSome_eq_supported entries]
    cases myEncoderDumpsEntries entries <;> rfl
  | .arr items => by
    show ((myEncoderDumpsList items).map Json.arr).isSome = supportedList items
    rw [← myEncoderList_isSome_eq_supported items]
    cases myEncoderDumpsList items <;> rfl
  | .npInt _ => rfl
  | .npFloat _ => rfl
  | .npArray items => by
    show ((myEncoderDumpsList items).map Json.arr).isSome = supportedList items
    rw [← myEncoderList_isSome_eq_supported items]
    cases myEncoderDumpsList items <;> rfl
  | .other _ => rfl

theorem myEncoderEntries_isSome_eq_supported :
    ∀ ps : List (String × Value),
      (myEncoderDumpsEntries ps).isSome = supportedEntries ps
  | [] => rfl
  | (k, v) :: ps => by
    show (match myEncoderDumps v, myEncoderDumpsEntries ps with
      | some j, some rest => some ((k, j) :: rest)
      | _, _ => none).isSome = (supported v && supportedEntries ps)
    rw [← myEncoder_isSome_eq_supported v, ← myEncoderEntries_isSome_eq_supported ps]
    cases myEncoderDumps v <;> cases myEncoderDumpsEntries ps <;> rfl

theorem myEncoderList_isSome_eq_supported :
    ∀ vs : List Value, (myEncoderDumpsList vs).isSome = supportedList vs
  | [] => rfl
  | v :: vs => by
    show (match myEncoderDumps v, myEncoderDumpsList vs with
      | some j, some rest => some (j :: rest)
      | _, _ => none).isSome = (supported v && supportedList vs)
    rw [← myEncoder_isSome_eq_supported v, ← myEncoderList_isSome_eq_supported vs]
    cases myEncoderDumps v <;> cases myEncoderDumpsList vs <;> rfl

end

mutual

theorem containsNumpy_jsonDumps_none :
    ∀ v : Value, containsNumpy v = true → jsonDumps v = none
  | .str _, h => by simp [containsNumpy] at h
  | .pyInt _, h => by simp [containsNumpy] at h
  | .pyFloat _, h => by simp [containsNumpy] at h
  | .bool _, h => by simp [containsNumpy] at h
  | .null, h => by simp [containsNumpy] at h
  | .obj entries, h => by
    have h' : entriesContainNumpy entries = true := h
    show (jsonDumpsEntries entries).map Json.obj = none
    rw [entriesContainNumpy_jsonDumps_none entries h']
    rfl
  | .arr items, h => by
    have h' : listContainsNumpy items = true := h
    show (jsonDumpsList items).map Json.arr = none
    rw [listContainsNumpy_jsonDumps_none items h']
    rfl
  | .npInt _, _ => rfl
  | .npFloat _, _ => rfl
  | .npArray _, _ => rfl
  | .other _, h => by simp [containsNumpy] at h

theorem entriesContainNumpy_jsonDumps_none :
    ∀ ps : List (String × Value),
      entriesContainNumpy ps = true → jsonDumpsEntries ps = none
  | [], h => by simp [entriesContainNumpy] at h
  | (k, v) :: ps, h => by
    have h' : (containsNumpy v || entriesContainNumpy ps) = true := h
    show (match jsonDumps v, jsonDumpsEntries ps with
      | some j, some rest => some ((k, j) :: rest)
      | _, _ => none) = none
    cases hcv : containsNumpy v with
    | true =>
      rw [containsNumpy_jsonDumps_none v hcv]
    | false =>
      rw [hcv] at h'
      simp only [Bool.false_or] at h'
      rw [entriesContainNumpy_jsonDumps_none ps h']
      cases jsonDumps v <;> rfl

theorem listContainsNumpy_jsonDumps_none :
    ∀ vs : List Value, listContainsNumpy vs = true → jsonDumpsList vs = none
  | [], h => by simp [listContainsNumpy] at h
  | v :: vs, h => by
    have h' : (containsNumpy v || listContainsNumpy vs) = true := h
    show (match jsonDumps v, jsonDumpsList vs with
      | some j, some rest => some (j :: rest)
      | _, _ => none) = none
    cases hcv : containsNumpy v with
    | true =>
      rw [containsNumpy_jsonDumps_none v hcv]
    | false =>
      rw [hcv] at h'
      simp only [Bool.false_or] at h'
      rw [listContainsNumpy_jsonDumps_none vs h']
      cases jsonDumps v <;> rfl

end

theorem lookupKey_append_left :
    ∀ (a b : List (String × Value)) (t : String) (v : Value),
      lookupKey t a = some v → lookupKey t (a ++ b) = some v
  | [], _, _, _, h => by simp [lookupKey] at h
  | (k, w) :: a, b, t, v, h => by
    show (if k = t then some w else lookupKey t (a ++ b)) = some v
    have h' : (if k = t then some w else lookupKey t a) = some v := h
    by_cases hk : k = t
    · rw [if_pos hk] at h' ⊢; exact h'
    · rw [if_neg hk] at h' ⊢; exact lookupKey_append_left a b t v h'

theorem isAttrKey_atMark (a : String) : isAttrKey ("@" ++ a) = true := by
  unfold isAttrKey
  rw [String.data_append]
  rfl

theorem atMark_inj (a b : String) (h : "@" ++ a = "@" ++ b) : a = b := by
  have hd := congrArg String.data h
  rw [String.data_append, String.data_append] at hd
  have hd' : ('@' :: a.data) = ('@' :: b.data) := hd
  have hab : a.data = b.data := by injection hd'
  cases a; cases b; exact congrArg String.mk hab

theorem lookupKey_skip_attrs (t : String) (ht : isAttrKey t = false) :
    ∀ (attrs : List (String × String)) (rest : List (String × Value)),
      lookupKey t (attrEntries attrs ++ rest) = lookupKey t rest
  | [], rest => rfl
  | (n, v) :: attrs, rest => by
    show (if "@" ++ n = t then some (Value.str v)
      else lookupKey t (attrEntries attrs ++ rest)) = lookupKey t rest
    have hne : ¬("@" ++ n = t) := by
      intro heq
      rw [← heq, isAttrKey_atMark] at ht
      exact Bool.noConfusion ht
    rw [if_neg hne]
    exact lookupKey_skip_attrs t ht attrs rest

theorem lookupKey_attrEntries (n : String) :
    ∀ attrs : List (String × String),
      lookupKey ("@" ++ n) (attrEntries attrs)
        = (lookupString n attrs).map Value.str
  | [] => rfl
  | (a, b) :: attrs => by
    show (if "@" ++ a = "@" ++ n then some (Value.str b)
      else lookupKey ("@" ++ n) (attrEntries attrs))
      = (if a = n then some b else lookupString n attrs).map Value.str
    by_cases ha : a = n
    · subst ha; simp
    · have hne : ¬("@" ++ a = "@" ++ n) := fun heq => ha (atMark_inj a n heq)
      rw [if_neg hne, if_neg ha]
      exact lookupKey_attrEntries n attrs

theorem lookupKey_map_of_mem (f : String → Value) :
    ∀ (l : List String) (t : String), t ∈ l →
      lookupKey t (l.map (fun s => (s, f s))) = some (f t)
  | [], t, h => absurd h (List.not_mem_nil t)
  | s :: l, t, h => by
    show (if s = t then some (f s) else lookupKey t (l.map (fun s => (s, f s))))
      = some (f t)
    by_cases hs : s = t
    · subst hs; simp
    · rcases List.mem_cons.mp h with h1 | h1
      · exact absurd h1.symm hs
      · rw [if_neg hs]
        exact lookupKey_map_of_mem f l t h1

theorem valuesFor_childEntries (t : String) :
    ∀ cs : List Xml,
      valuesFor t (childEntries cs) = (sameTagChildren t cs).map elemValue
  | [] => rfl
  | c :: cs => by
    show (if c.tag = t then elemValue c :: valuesFor t (childEntries cs)
      else valuesFor t (childEntries cs))
      = (if c.tag = t then c :: sameTagChildren t cs
        else sameTagChildren t cs).map elemValue
    by_cases hc : c.tag = t
    · rw [if_pos hc, if_pos hc, List.map_cons, valuesFor_childEntries t cs]
    · rw [if_neg hc, if_neg hc, valuesFor_childEntries t cs]

theorem mem_firstKeysAux :
    ∀ (ps : List (String × Value)) (seen : List String) (t : String),
      t ∉ seen → valuesFor t ps ≠ [] → t ∈ firstKeysAux seen ps
  | [], _, t, _, hv => absurd rfl hv
  | (k, v) :: ps, seen, t, hs, hv => by
    show t ∈ (if k ∈ seen then firstKeysAux seen ps
      else k :: firstKeysAux (k :: seen) ps)
    have hv' : (if k = t then v :: valuesFor t ps else valuesFor t ps) ≠ [] := hv
    by_cases hk : k ∈ seen
    · rw [if_pos hk]
      have hkt : ¬(k = t) := fun heq => hs (heq ▸ hk)
      rw [if_neg hkt] at hv'
      exact mem_firstKeysAux ps seen t hs hv'
    · rw [if_neg hk]
      by_cases hkt : k = t
      · exact hkt ▸ List.mem_cons_self k _
      · rw [if_neg hkt] at hv'
        have hs' : t ∉ k :: seen := by
          intro hmem
          rcases List.mem_cons.mp hmem with h1 | h1
          · exact hkt h1.symm
          · exact hs h1
        exact List.mem_cons_of_mem k (mem_firstKeysAux ps (k :: seen) t hs' hv')

theorem mem_firstKeys (ps : List (String × Value)) (t : String)
    (hv : valuesFor t ps ≠ []) : t ∈ firstKeys ps :=
  mem_firstKeysAux ps [] t (List.not_mem_nil t) hv

theorem groupValue_of_repeated (ps : List (String × Value)) (t : String)
    (h : 2 ≤ (valuesFor t ps).length) :
    groupValue ps t = Value.arr (valuesFor t ps) := by
  unfold groupValue
  rcases hl : valuesFor t ps with _ | ⟨a, _ | ⟨b, rest⟩⟩
  · exact absurd (hl ▸ h) (by simp)
  · exact absurd (hl ▸ h) (by simp)
  · rfl

theorem lookupKey_groupChildren (ps : List (String × Value)) (t : String)
    (h : t ∈ firstKeys ps) :
    lookupKey t (groupChildren ps) = some (groupValue ps t) :=
  lookupKey_map_of_mem (groupValue ps) (firstKeys ps) t h

theorem runFromRaw_success (raw : Value) (j j2 : Json)
    (h1 : myEncoderDumps raw = some j) (h2 : jsonDumps raw = some j2) :
    runFromRaw raw =
      ⟨[.printed (renderTop j ++ "\n"), .fileOpened outputFileName,
        .fileWritten outputFileName (renderTop j2)], 0⟩ := by
  unfold runFromRaw
  rw [h1, h2]

theorem runFromRaw_fileDumpFail (raw : Value) (j : Json)
    (h1 : myEncoderDumps raw = some j) (h2 : jsonDumps raw = none) :
    runFromRaw raw =
      ⟨[.printed (renderTop j ++ "\n"), .fileOpened outputFileName], 1⟩ := by
  unfold runFromRaw
  rw [h1, h2]

theorem runFromRaw_exit_zero (raw : Value)
    (h : (runFromRaw raw).exitCode = 0) :
    ∃ j j2, myEncoderDumps raw = some j ∧ jsonDumps raw = some j2 := by
  unfold runFromRaw at h
  cases h1 : myEncoderDumps raw with
  | none => rw [h1] at h; simp at h
  | some j =>
    rw [h1] at h
    cases h2 : jsonDumps raw with
    | none => rw [h2] at h; simp at h
    | some j2 => exact ⟨j, j2, rfl, rfl⟩

theorem lookupKey_elemValue_repeated
    (tag t : String) (attrs : List (String × String)) (text : Option String)
    (cs : List Xml)
    (ht : isAttrKey t = false)
    (h2 : 2 ≤ (sameTagChildren t cs).length) :
    lookupKey t (entriesOf (elemValue (Xml.elem tag attrs text cs)))
      = some (Value.arr ((sameTagChildren t cs).map elemValue)) := by
  cases cs with
  | nil => simp [sameTagChildren] at h2
  | cons c cs' =>
    have hentries : entriesOf (elemValue (Xml.elem tag attrs text (c :: cs')))
        = attrEntries attrs ++ groupChildren (childEntries (c :: cs'))
          ++ textEntries text := by
      simp [elemValue, entriesOf, List.isEmpty_cons, Bool.and_false]
    rw [hentries, List.append_assoc, lookupKey_skip_attrs t ht attrs _]
    have hvne : valuesFor t (childEntries (c :: cs')) ≠ [] := by
      rw [valuesFor_childEntries]
      intro hnil
      have hlen := congrArg List.length hnil
      rw [List.length_map, List.length_nil] at hlen
      omega
    have hmem := mem_firstKeys (childEntries (c :: cs')) t hvne
    rw [lookupKey_append_left _ _ t _ (lookupKey_groupChildren _ t hmem)]
    rw [groupValue_of_repeated]
    · rw [valuesFor_childEntries]
    · rw [valuesFor_childEntries, List.length_map]
      exact h2

/-! ## Claims -/

/-- C1: `MyEncoder` converts numpy leaf values to plain JSON values — numpy
integers to JSON integers, numpy floats to JSON numbers, numpy arrays to JSON
arrays whose elements are serialized recursively by the same encoder; in
particular the fixed-size numeric array `[1, 2, 3]` serializes to the literal
JSON array `[1, 2, 3]`, not an error and not a string. -/
theorem numeric_fallback_to_plain_json (n f : Int) (items : List Value) :
    myEncoderDumps (Value.npInt n) = some (Json.jint n)
    ∧ myEncoderDumps (Value.npFloat f) = some (Json.jfloat f)
    ∧ myEncoderDumps (Value.npArray items) = (myEncoderDumpsList items).map Json.arr
    ∧ myEncoderDumps (Value.npArray [Value.npInt 1, Value.npInt 2, Value.npInt 3])
        = some (Json.arr [Json.jint 1, Json.jint 2, Json.jint 3]) :=
  ⟨rfl, rfl, rfl, rfl⟩

/-- C2: in every run that exits successfully, the text printed to stdout and
the text written to the output file are indent-2 renderings of one and the
same JSON value (so they parse back to structurally equal values); the only
formatting difference is the newline `print` appends. -/
theorem console_file_agreement (x : Xml)
    (h : (run (some x)).exitCode = 0) :
    ∃ j : Json, (run (some x)).events =
      [Event.printed (renderTop j ++ "\n"), Event.fileOpened outputFileName,
       Event.fileWritten outputFileName (renderTop j)] := by
  obtain ⟨j, j2, h1, h2⟩ := runFromRaw_exit_zero (xmltodictParse x) h
  have hjj : j = j2 := by
    have hmy := jsonDumps_imp_myEncoder (xmltodictParse x) j2 h2
    rw [h1] at hmy
    exact Option.some.inj hmy
  subst hjj
  exact ⟨j, by
    rw [show run (some x) = runFromRaw (xmltodictParse x) from rfl,
      runFromRaw_success _ j j h1 h2]⟩

/-- Witness for C2 at a concrete input: the run on `<VOTABLE/>` succeeds. -/
theorem console_file_agreement_witness :
    (run (some (Xml.elem "VOTABLE" [] none []))).exitCode = 0
    ∧ ∃ j : Json, (run (some (Xml.elem "VOTABLE" [] none []))).events =
        [Event.printed (renderTop j ++ "\n"), Event.fileOpened outputFileName,
         Event.fileWritten outputFileName (renderTop j)] :=
  ⟨rfl, console_file_agreement (Xml.elem "VOTABLE" [] none []) rfl⟩

/-- C5: the run is deterministic — any two runs on the same parsed input
produce the same observable outcome, in particular byte-identical output file
contents. -/
theorem conversion_deterministic (i : Option Xml) (r1 r2 : RunResult)
    (h1 : Runs i r1) (h2 : Runs i r2) :
    r1 = r2 ∧ fileContentsAfter r1 = fileContentsAfter r2 := by
  have heq : r1 = r2 := by
    cases h1 <;> cases h2 <;> simp_all
  exact ⟨heq, heq ▸ rfl⟩

/-- Witness for C5 at a concrete input: two failing parses of a missing file
give identical outcomes. -/
theorem conversion_deterministic_witness :
    Runs none ⟨[], 1⟩
    ∧ ((⟨[], 1⟩ : RunResult) = ⟨[], 1⟩
      ∧ fileContentsAfter ⟨[], 1⟩ = fileContentsAfter ⟨[], 1⟩) :=
  ⟨Runs.parseFail,
    conversion_deterministic none ⟨[], 1⟩ ⟨[], 1⟩ Runs.parseFail Runs.parseFail⟩

/-- C6: when `etree.parse` fails (missing, unreadable or malformed input),
the run exits with a non-zero code, nothing is printed, and the output file is
neither created nor modified — the failure precedes the `open` of the output
file, so the trace holds no file event at all. -/
theorem parse_failure_fatal_no_output :
    (run none).exitCode = 1
    ∧ (run none).events = []
    ∧ fileContentsAfter (run none) = none :=
  ⟨rfl, rfl, rfl⟩

/-- C7: the console serialization (`json.dumps` with `cls=MyEncoder`) succeeds
exactly on structures whose every value is of a whitelisted type — string,
number, boolean, null, mapping, sequence, numpy integer, numpy floating or
numpy ndarray — and fails (raises, i.e. returns `none`) as soon as any other
value is present. -/
theorem serializer_succeeds_iff_whitelisted (v : Value) :
    (myEncoderDumps v).isSome = supported v :=
  myEncoder_isSome_eq_supported v

/-- C8: the output path is the input path with the `xml` extension replaced by
`json`, in the same directory: the hard-coded output filename coincides with
the extension-swap of the hard-coded input filename, and both are joined to
the same `data_path`. -/
theorem output_path_extension_swap (dataPath : String) :
    outputFileName = replaceXmlWithJson inputFileName
    ∧ outputPath dataPath = joinPath dataPath (replaceXmlWithJson inputFileName)
    ∧ inputPath dataPath = joinPath dataPath inputFileName := by
  have hswap : outputFileName = replaceXmlWithJson inputFileName := rfl
  exact ⟨hswap, congrArg (fun s => joinPath dataPath s) hswap, rfl⟩

/-- C9: in every successful run the indent-2 rendering is printed to stdout
exactly once, and the print event precedes the file-write event in the trace. -/
theorem stdout_print_once_before_write (x : Xml)
    (h : (run (some x)).exitCode = 0) :
    printedCount (run (some x)) = 1
    ∧ ∃ p c, (run (some x)).events =
        [Event.printed p, Event.fileOpened outputFileName,
         Event.fileWritten outputFileName c] := by
  obtain ⟨j, j2, h1, h2⟩ := runFromRaw_exit_zero (xmltodictParse x) h
  rw [show run (some x) = runFromRaw (xmltodictParse x) from rfl,
    runFromRaw_success _ j j2 h1 h2]
  exact ⟨rfl, renderTop j ++ "\n", renderTop j2, rfl⟩

/-- Witness for C9 at a concrete input: the run on `<A>hi</A>` succeeds. -/
theorem stdout_print_once_before_write_witness :
    (run (some (Xml.elem "A" [] (some "hi") []))).exitCode = 0
    ∧ (printedCount (run (some (Xml.elem "A" [] (some "hi") []))) = 1
      ∧ ∃ p c, (run (some (Xml.elem "A" [] (some "hi") []))).events =
          [Event.printed p, Event.fileOpened outputFileName,
           Event.fileWritten outputFileName c]) :=
  ⟨rfl, stdout_print_once_before_write (Xml.elem "A" [] (some "hi") []) rfl⟩

/-- C10: the file-write `json.dumps` omits `cls=MyEncoder`: on any otherwise
serializable structure that contains a numpy value, the console dump succeeds
and is printed, the output file is opened (truncating it to empty), and then
the plain `json.dumps` raises, aborting the run with no write — leaving the
output file empty. -/
theorem file_write_lacks_numeric_fallback (raw : Value)
    (hsup : supported raw = true) (hnp : containsNumpy raw = true) :
    (myEncoderDumps raw).isSome = true
    ∧ jsonDumps raw = none
    ∧ (runFromRaw raw).exitCode = 1
    ∧ fileContentsAfter (runFromRaw raw) = some ""
    ∧ ∃ p, (runFromRaw raw).events =
        [Event.printed p, Event.fileOpened outputFileName] := by
  have hsome : (myEncoderDumps raw).isSome = true := by
    rw [myEncoder_isSome_eq_supported]
    exact hsup
  have hnone := containsNumpy_jsonDumps_none raw hnp
  obtain ⟨j, hj⟩ := Option.isSome_iff_exists.mp hsome
  have hrun := runFromRaw_fileDumpFail raw j hj hnone
  refine ⟨hsome, hnone, ?_, ?_, renderTop j ++ "\n", ?_⟩
  · rw [hrun]
  · rw [hrun]
    rfl
  · rw [hrun]

/-- Witness for C10 at a concrete input: a bare numpy integer `5`. -/
theorem file_write_lacks_numeric_fallback_witness :
    supported (Value.npInt 5) = true
    ∧ containsNumpy (Value.npInt 5) = true
    ∧ ((myEncoderDumps (Value.npInt 5)).isSome = true
      ∧ jsonDumps (Value.npInt 5) = none
      ∧ (runFromRaw (Value.npInt 5)).exitCode = 1
      ∧ fileContentsAfter (runFromRaw (Value.npInt 5)) = some ""
      ∧ ∃ p, (runFromRaw (Value.npInt 5)).events =
          [Event.printed p, Event.fileOpened outputFileName]) :=
  ⟨rfl, rfl, file_write_lacks_numeric_fallback (Value.npInt 5) rfl rfl⟩

/-- C3, counterexample to the claim as stated: with exactly one `b` child
(`N = 1`), `xmltodict` stores the child's converted value directly under key
`"b"` — here `null`, which is not a sequence — not an ordered sequence of
length 1. -/
theorem single_sibling_not_a_sequence :
    (lookupKey "b" (entriesOf (elemValue
      (Xml.elem "a" [] none [Xml.elem "b" [] none []])))).map Value.isArr
      = some false :=
  rfl

/-- C3, amended: for `N ≥ 2` sibling elements with the same tag `t` under one
parent, the intermediate structure stores under key `t` an ordered sequence of
length `N` listing the converted siblings in source order (a single occurrence
is stored directly, not as a one-element sequence).  The first conjunct ties
the parent's representation into `xmltodictParse`. -/
theorem repeated_siblings_ordered_sequence
    (tag t : String) (attrs : List (String × String)) (text : Option String)
    (cs : List Xml) (N : Nat)
    (ht : isAttrKey t = false)
    (hN : (sameTagChildren t cs).length = N)
    (h2 : 2 ≤ N) :
    lookupKey tag (entriesOf (xmltodictParse (Xml.elem tag attrs text cs)))
      = some (elemValue (Xml.elem tag attrs text cs))
    ∧ lookupKey t (entriesOf (elemValue (Xml.elem tag attrs text cs)))
        = some (Value.arr ((sameTagChildren t cs).map elemValue))
    ∧ ((sameTagChildren t cs).map elemValue).length = N := by
  refine ⟨?_, lookupKey_elemValue_repeated tag t attrs text cs ht (by omega), ?_⟩
  · simp [xmltodictParse, entriesOf, lookupKey, Xml.tag]
  · rw [List.length_map]
    exact hN

/-- Witness for the amended C3 at a concrete input: two `b` children. -/
theorem repeated_siblings_ordered_sequence_witness :
    isAttrKey "b" = false
    ∧ (sameTagChildren "b"
        [Xml.elem "b" [] none [], Xml.elem "b" [] (some "x") []]).length = 2
    ∧ 2 ≤ 2
    ∧ (lookupKey "a" (entriesOf (xmltodictParse (Xml.elem "a" [] none
          [Xml.elem "b" [] none [], Xml.elem "b" [] (some "x") []])))
        = some (elemValue (Xml.elem "a" [] none
          [Xml.elem "b" [] none [], Xml.elem "b" [] (some "x") []]))
      ∧ lookupKey "b" (entriesOf (elemValue (Xml.elem "a" [] none
          [Xml.elem "b" [] none [], Xml.elem "b" [] (some "x") []])))
        = some (Value.arr ((sameTagChildren "b"
          [Xml.elem "b" [] none [], Xml.elem "b" [] (some "x") []]).map elemValue))
      ∧ ((sameTagChildren "b"
          [Xml.elem "b" [] none [], Xml.elem "b" [] (some "x") []]).map
            elemValue).length = 2) :=
  ⟨rfl, rfl, Nat.le.refl,
    repeated_siblings_ordered_sequence "a" "b" [] none
      [Xml.elem "b" [] none [], Xml.elem "b" [] (some "x") []] 2 rfl rfl
      Nat.le.refl⟩

/-- C4: an element with an attribute `n` and a child element also tagged `n`
exposes both under distinct keys: the attribute value (a string) under the
`"@"`-marked key `"@" ++ n`, the child under the plain key `n`, and the two
keys never collide. -/
theorem attr_child_no_collision
    (tag n v : String) (attrs : List (String × String)) (text : Option String)
    (cs : List Xml)
    (hattr : lookupString n attrs = some v)
    (hchild : (sameTagChildren n cs).isEmpty = false)
    (hn : isAttrKey n = false) :
    lookupKey ("@" ++ n) (entriesOf (elemValue (Xml.elem tag attrs text cs)))
      = some (Value.str v)
    ∧ (lookupKey n (entriesOf (elemValue (Xml.elem tag attrs text cs)))).isSome
        = true
    ∧ "@" ++ n ≠ n := by
  cases attrs with
  | nil => simp [lookupString] at hattr
  | cons a attrs' =>
    have hentries : entriesOf (elemValue (Xml.elem tag (a :: attrs') text cs))
        = attrEntries (a :: attrs') ++ groupChildren (childEntries cs)
          ++ textEntries text := by
      simp [elemValue, entriesOf, List.isEmpty_cons, Bool.false_and]
    refine ⟨?_, ?_, ?_⟩
    · rw [hentries, List.append_assoc]
      apply lookupKey_append_left
      rw [lookupKey_attrEntries, hattr]
      rfl
    · rw [hentries, List.append_assoc, lookupKey_skip_attrs n hn]
      have hvne : valuesFor n (childEntries cs) ≠ [] := by
        rw [valuesFor_childEntries]
        intro hnil
        cases hst : sameTagChildren n cs with
        | nil => rw [hst] at hchild; simp at hchild
        | cons y ys => rw [hst] at hnil; simp at hnil
      have hmem := mem_firstKeys (childEntries cs) n hvne
      rw [lookupKey_append_left _ _ n _ (lookupKey_groupChildren _ n hmem)]
      rfl
    · intro heq
      have hmark := congrArg isAttrKey heq
      rw [isAttrKey_atMark, hn] at hmark
      exact Bool.noConfusion hmark

/-- Witness for C4 at a concrete input: `<FIELD name="ra"><name/></FIELD>`. -/
theorem attr_child_no_collision_witness :
    lookupString "name" [("name", "ra")] = some "ra"
    ∧ (sameTagChildren "name" [Xml.elem "name" [] none []]).isEmpty = false
    ∧ isAttrKey "name" = false
    ∧ (lookupKey ("@" ++ "name") (entriesOf (elemValue (Xml.elem "FIELD"
          [("name", "ra")] none [Xml.elem "name" [] none []])))
        = some (Value.str "ra")
      ∧ (lookupKey "name" (entriesOf (elemValue (Xml.elem "FIELD"
          [("name", "ra")] none [Xml.elem "name" [] none []])))).isSome = true
      ∧ "@" ++ "name" ≠ "name") :=
  ⟨rfl, rfl, rfl,
    attr_child_no_collision "FIELD" "name" "ra" [("name", "ra")] none
      [Xml.elem "name" [] none []] rfl rfl rfl⟩
